import Mathlib

/-!
Verification of the core state machines of the QuantumRollCall repository:
the name-roster engine (`NameListManager` in RollCall.py), the countdown
timer (`TimerInterface`, present in two revisions: RollCall.py and Main.py),
and the external updater (Update.py).  Each Python method is embedded as an
executable Lean function over an explicit state type; GUI calls (labels,
styles, dialogs, sounds) are modelled as emitted events or dropped when they
touch no specified state.
-/

namespace Roster

/-- State of `NameListManager`: `names` is a Python list of strings,
`used_names` a Python set (modelled as a `Finset`). -/
structure State where
  names : List String
  usedNames : Finset String
deriving DecidableEq

/-- `NameListManager.__init__`: empty roster. -/
def init : State := ⟨[], ∅⟩

/-- `NameListManager.add_name`: appends when the name is non-empty (Python
truthiness of a string) and not already present; returns the success flag. -/
def addName (s : State) (name : String) : State × Bool :=
  if name ≠ "" ∧ name ∉ s.names then
    ({ s with names := s.names ++ [name] }, true)
  else (s, false)

/-- `NameListManager.remove_name`: removes the first occurrence from `names`
and removes the name from `used_names` when present. -/
def removeName (s : State) (name : String) : State × Bool :=
  if name ∈ s.names then
    (⟨s.names.erase name, s.usedNames.erase name⟩, true)
  else (s, false)

/-- `NameListManager.clear_names`. -/
def clearNames (_s : State) : State := ⟨[], ∅⟩

/-- `NameListManager.reset_used_names`. -/
def resetUsedNames (s : State) : State := { s with usedNames := ∅ }

/-- `NameListManager.get_available_names`. -/
def getAvailableNames (s : State) : List String :=
  s.names.filter (fun n => n ∉ s.usedNames)

/-- `NameListManager.mark_name_as_used`: adds unconditionally (no membership
check against `names`) whenever avoid-repetition is on and the name is a
non-empty string. -/
def markNameAsUsed (s : State) (name : String) (avoidRepetition : Bool) : State :=
  if avoidRepetition ∧ name ≠ "" then
    { s with usedNames := insert name s.usedNames }
  else s

/-- `NameListManager.check_and_reset_if_complete`. -/
def checkAndResetIfComplete (s : State) (avoidRepetition : Bool) : State × Bool :=
  if avoidRepetition ∧ s.names.length ≤ s.usedNames.card ∧ 0 < s.names.length then
    (resetUsedNames s, true)
  else (s, false)

/-- The mutating operations of the roster engine, as claim C1 lists them. -/
inductive Action where
  | add (n : String)
  | remove (n : String)
  | clear
  | resetUsed
  | mark (n : String) (avoid : Bool)
  | checkReset (avoid : Bool)
deriving DecidableEq

/-- One mutating step of the roster engine. -/
def step (s : State) : Action → State
  | .add n => (addName s n).1
  | .remove n => (removeName s n).1
  | .clear => clearNames s
  | .resetUsed => resetUsedNames s
  | .mark n b => markNameAsUsed s n b
  | .checkReset b => (checkAndResetIfComplete s b).1

/-- Run a sequence of operations from the empty roster. -/
def run (acts : List Action) : State := acts.foldl step init

/-- The invariant of claim C1: every used name is in the name list. -/
def Inv (s : State) : Prop := ∀ n ∈ s.usedNames, n ∈ s.names

instance (s : State) : Decidable (Inv s) := by
  unfold Inv; infer_instance

end Roster

/-- C1. COUNTEREXAMPLE: `mark_name_as_used` does not check membership in
`names`, so the single-operation sequence `markUsed "A" true` from the empty
roster produces `used = {"A"} ⊄ names = []`: the invariant `used ⊆ names`
does not hold after every operation of every sequence. -/
theorem roster_inv_fails_on_unchecked_mark :
    ¬ Roster.Inv (Roster.run [Roster.Action.mark "A" true]) := by
  decide

/-- C1 (amended). The invariant `used ⊆ names` holds of the empty roster and
is preserved by every operation provided each `markUsed` call receives a name
already in `names` (which the application guarantees by only marking names
drawn from the list); in particular `removeName` also removes the name from
`used`, unconditionally on the rest of the state. -/
theorem roster_inv_preserved :
    Roster.Inv Roster.init ∧
    (∀ (s : Roster.State) (a : Roster.Action), Roster.Inv s →
      (∀ n b, a = Roster.Action.mark n b → n ∈ s.names) →
      Roster.Inv (Roster.step s a)) ∧
    (∀ (s : Roster.State) (n : String), n ∈ s.names →
      n ∉ (Roster.step s (Roster.Action.remove n)).usedNames) := by
  refine ⟨by decide, ?_, ?_⟩
  · rintro s a hInv hMark
    cases a with
    | add n =>
        simp only [Roster.step, Roster.addName]
        split
        · intro m hm
          exact List.mem_append_left _ (hInv m hm)
        · exact hInv
    | remove n =>
        simp only [Roster.step, Roster.removeName]
        split
        · intro m hm
          rw [Finset.mem_erase] at hm
          exact List.mem_erase_of_ne hm.1 |>.mpr (hInv m hm.2)
        · exact hInv
    | clear =>
        intro m hm
        simp [Roster.step, Roster.clearNames] at hm
    | resetUsed =>
        intro m hm
        simp [Roster.step, Roster.resetUsedNames] at hm
    | mark n b =>
        simp only [Roster.step, Roster.markNameAsUsed]
        split
        · intro m hm
          rw [Finset.mem_insert] at hm
          rcases hm with rfl | hm
          · exact hMark m b rfl
          · exact hInv m hm
        · exact hInv
    | checkReset b =>
        simp only [Roster.step, Roster.checkAndResetIfComplete]
        split
        · intro m hm
          simp [Roster.resetUsedNames] at hm
        · exact hInv
  · rintro s n hn
    simp only [Roster.step, Roster.removeName, if_pos hn]
    simp

/-- C1 witness: the preserved-invariant theorem applied to concrete states;
marking a listed name keeps the invariant, and removing it clears it from
`used`. -/
theorem roster_inv_preserved_witness :
    Roster.Inv (Roster.step ⟨["A"], ∅⟩ (Roster.Action.mark "A" true)) ∧
    "A" ∉ (Roster.step ⟨["A"], {"A"}⟩ (Roster.Action.remove "A")).usedNames := by
  refine ⟨?_, ?_⟩
  · exact roster_inv_preserved.2.1 ⟨["A"], ∅⟩ (Roster.Action.mark "A" true)
      (by decide) (by intro n b h; cases h; decide)
  · exact roster_inv_preserved.2.2 ⟨["A"], {"A"}⟩ "A" (by decide)

namespace RC

/-!
Embedding of `TimerInterface` from RollCall.py.  The Qt timer is modelled by
`timerIntervalMs` (`some 1000` while `self.timer` runs), the digit labels and
their warning styling by `warningColor`, and the InfoBar / sound / dialog
side effects by emitted `TEvent`s.
-/

/-- Events the RollCall.py timer emits towards the GUI host. -/
inductive TEvent where
  | zeroDurationWarning
  | warnBeep
  | expired
deriving DecidableEq

/-- State of RollCall.py's `TimerInterface`. -/
structure TState where
  digits : List Nat
  maxDigit : List Nat
  isRunning : Bool
  preStartSeconds : Option Nat
  initialSeconds : Option Nat
  timerIntervalMs : Option Nat
  warningColor : Bool
deriving DecidableEq

/-- `TimerInterface._digits_to_seconds` (RollCall.py): raw decode, no
clamping of any digit. -/
def digitsToSeconds (d : List Nat) : Nat :=
  let h := d.getD 0 0 * 10 + d.getD 1 0
  let m := d.getD 2 0 * 10 + d.getD 3 0
  let s := d.getD 4 0 * 10 + d.getD 5 0
  h * 3600 + m * 60 + s

/-- `TimerInterface._seconds_to_digits` (RollCall.py): `max(0, seconds)` then
plain decomposition — no 99-hour cap and no hour-ones constraint. -/
def secondsToDigits (seconds : Int) : List Nat :=
  let s := seconds.toNat
  let h := s / 3600
  let r := s % 3600
  let m := r / 60
  let c := r % 60
  [h / 10, h % 10, m / 10, m % 10, c / 10, c % 10]

/-- `TimerInterface._enforce_hour_constraints` (RollCall.py). -/
def enforceHourConstraints (s : TState) : TState :=
  let maxD := s.maxDigit.set 1 (if s.digits.getD 0 0 = 2 then 3 else 9)
  let digits :=
    if maxD.getD 1 0 < s.digits.getD 1 0 then s.digits.set 1 (maxD.getD 1 0)
    else s.digits
  { s with maxDigit := maxD, digits := digits }

/-- `TimerInterface.__init__` (RollCall.py): digits 00:05:00, per-position
maxima `[2,9,5,9,5,9]`, not running, no snapshots; the constructor then sets
`_initial_seconds` from the digits and enforces the hour constraint. -/
def init : TState :=
  let s : TState := ⟨[0, 0, 0, 5, 0, 0], [2, 9, 5, 9, 5, 9],
    false, none, none, none, false⟩
  enforceHourConstraints { s with initialSeconds := some (digitsToSeconds s.digits) }

/-- `TimerInterface._increment_digit` (RollCall.py): no-op while running,
else bump with wrap past the per-position maximum, re-enforcing the hour
constraint after a change of position 0. -/
def incrementDigit (s : TState) (pos : Nat) : TState :=
  if s.isRunning then s
  else
    let d := s.digits.getD pos 0 + 1
    let d := if s.maxDigit.getD pos 0 < d then 0 else d
    let s := { s with digits := s.digits.set pos d }
    if pos = 0 then enforceHourConstraints s else s

/-- `TimerInterface._decrement_digit` (RollCall.py). -/
def decrementDigit (s : TState) (pos : Nat) : TState :=
  if s.isRunning then s
  else
    let d0 := s.digits.getD pos 0
    let d := if d0 = 0 then s.maxDigit.getD pos 0 else d0 - 1
    let s := { s with digits := s.digits.set pos d }
    if pos = 0 then enforceHourConstraints s else s

/-- `TimerInterface.start` (RollCall.py): zero total shows a warning InfoBar
and changes nothing; otherwise snapshot the total, mark running and start the
1000-millisecond repeating tick. -/
def start (s : TState) : TState × List TEvent :=
  let total := digitsToSeconds s.digits
  if total = 0 then (s, [TEvent.zeroDurationWarning])
  else
    ({ s with
        preStartSeconds := some total, initialSeconds := some total,
        isRunning := true, timerIntervalMs := some 1000 }, [])

/-- `TimerInterface.stop` (RollCall.py): pause; stops the Qt timer. -/
def stop (s : TState) : TState :=
  { s with isRunning := false, timerIntervalMs := none }

/-- `TimerInterface._restore_time` (RollCall.py). -/
def restoreTime (s : TState) : TState :=
  match s.preStartSeconds with
  | some p => { s with digits := secondsToDigits (p : Int) }
  | none => s

/-- `TimerInterface._timeout` (RollCall.py): stop, restore the pre-start
digits, clear the warning styling, and notify the host (ending sound, system
notification and dialog are all folded into the `expired` event). -/
def timeout (s : TState) : TState × List TEvent :=
  (({ restoreTime (stop s) with warningColor := false }), [TEvent.expired])

/-- `TimerInterface._tick` (RollCall.py): decrement the decoded total; beep
during the last three seconds; switch the digits to the warning colour when
at most a minute is left; on a negative new total run `_timeout`, else store
the new digits. -/
def tick (s : TState) : TState × List TEvent :=
  let total : Int := (digitsToSeconds s.digits : Int) - 1
  let ev : List TEvent := if 1 ≤ total ∧ total ≤ 3 then [TEvent.warnBeep] else []
  let s := { s with warningColor := if 0 ≤ total ∧ total ≤ 60 then true else false }
  if total < 0 then
    let r := timeout s
    (r.1, ev ++ r.2)
  else
    ({ s with digits := secondsToDigits total }, ev)

/-- `TimerInterface.reset` (RollCall.py): stop, restore digits from the
pre-start snapshot, else from the constructor-time initial snapshot, else the
default 00:05:00; then enforce the hour constraint and clear the styling. -/
def reset (s : TState) : TState :=
  let s := stop s
  let s :=
    match s.preStartSeconds with
    | some p => { s with digits := secondsToDigits (p : Int) }
    | none =>
      match s.initialSeconds with
      | some i => { s with digits := secondsToDigits (i : Int) }
      | none => { s with digits := [0, 0, 0, 5, 0, 0] }
  { enforceHourConstraints s with warningColor := false }

/-- State reached after `n` timer firings. -/
def tickN : Nat → TState → TState
  | 0, s => s
  | n + 1, s => tickN n (tick s).1

/-- Well-formedness of a timer state: six digit wheels, six maxima, every
wheel within its maximum. -/
def Wf (s : TState) : Prop :=
  s.digits.length = 6 ∧ s.maxDigit.length = 6 ∧
    ∀ i, i < 6 → s.digits.getD i 0 ≤ s.maxDigit.getD i 0

end RC

/-- The RollCall.py conversions round-trip on every non-negative total,
because neither direction clamps anything. -/
theorem rc_roundtrip (k : Nat) :
    RC.digitsToSeconds (RC.secondsToDigits (k : Int)) = k := by
  simp only [RC.digitsToSeconds, RC.secondsToDigits, Int.toNat_natCast,
    List.getD_cons_zero, List.getD_cons_succ]
  omega

/-- One running tick from a state displaying `k ≥ 1` seconds: the display
drops to `k - 1` and the warning styling tracks the one-minute threshold;
nothing else changes. -/
theorem rc_tick_fst (b : RC.TState) (k : Nat) (hk : 1 ≤ k)
    (hd : b.digits = RC.secondsToDigits (k : Int)) :
    (RC.tick b).1 = { b with
      digits := RC.secondsToDigits ((k - 1 : Nat) : Int),
      warningColor := if k - 1 ≤ 60 then true else false } := by
  have hds : RC.digitsToSeconds b.digits = k := by rw [hd]; exact rc_roundtrip k
  have h2 : (RC.digitsToSeconds b.digits : Int) - 1 = ((k - 1 : Nat) : Int) := by omega
  have h3 : ¬ (((k - 1 : Nat) : Int) < 0) := by omega
  have h4 : (0 ≤ ((k - 1 : Nat) : Int) ∧ ((k - 1 : Nat) : Int) ≤ 60) ↔ k - 1 ≤ 60 := by
    omega
  simp only [RC.tick, h2, if_neg h3, h4]

/-- `n ≥ 1` running ticks from a state displaying `k ≥ n` seconds leave the
engine running and displaying `k - n` seconds. -/
theorem rc_tickN_run (m k : Nat) (b : RC.TState) (h : m + 1 ≤ k)
    (hd : b.digits = RC.secondsToDigits (k : Int)) :
    RC.tickN (m + 1) b = { b with
      digits := RC.secondsToDigits ((k - (m + 1) : Nat) : Int),
      warningColor := if k - (m + 1) ≤ 60 then true else false } := by
  induction m generalizing b k with
  | zero =>
      show (RC.tick b).1 = _
      exact rc_tick_fst b k (by omega) hd
  | succ m ih =>
      show RC.tickN (m + 1) (RC.tick b).1 = _
      rw [rc_tick_fst b k (by omega) hd]
      rw [ih (k - 1) _ (by omega) rfl]
      have h4 : k - 1 - (m + 1) = k - (m + 1 + 1) := by omega
      rw [h4]

/-- C2. COUNTEREXAMPLE: with digits `[0,0,0,5,0,0]`, after exactly 300
`_tick` invocations the RollCall.py engine has NOT reached expiry: it is
still running, the 1-second timer is still active and the display shows
00:00:00; expiry only happens on the tick after that, because `_tick`
expires when the newly decremented total is negative, i.e. when the tick
starts from a displayed total of zero. -/
theorem countdown_not_expired_after_300_ticks :
    (RC.tickN 300 (RC.start RC.init).1).isRunning = true ∧
    (RC.tickN 300 (RC.start RC.init).1).timerIntervalMs = some 1000 ∧
    (RC.tickN 300 (RC.start RC.init).1).digits = [0, 0, 0, 0, 0, 0] := by
  have h0 : (RC.start RC.init).1 =
      ⟨[0, 0, 0, 5, 0, 0], [2, 9, 5, 9, 5, 9], true,
       some 300, some 300, some 1000, false⟩ := by decide
  have h1 := rc_tickN_run 299 300 (RC.start RC.init).1 (by omega)
    (by rw [h0]; decide)
  rw [show (299 : Nat) + 1 = 300 from rfl] at h1
  rw [h1, h0]
  decide

/-- C2 (amended). With digits `[0,0,0,5,0,0]` (5:00), `start()` succeeds
with `preStartSeconds = 300`, and after exactly 301 `_tick` invocations (one
tick per displayed second 299..0, plus the tick that pushes the total below
zero) the engine reaches expiry: the 301st tick stops the timer, emits the
expired event, restores the digits to `[0,0,0,5,0,0]` and returns the state
to Editing (`is_running = false`). -/
theorem countdown_expiry_after_301_ticks :
    (RC.start RC.init).2 = [] ∧
    (RC.start RC.init).1.preStartSeconds = some 300 ∧
    (RC.start RC.init).1.isRunning = true ∧
    (RC.tick (RC.tickN 300 (RC.start RC.init).1)).2 = [RC.TEvent.expired] ∧
    (RC.tick (RC.tickN 300 (RC.start RC.init).1)).1.isRunning = false ∧
    (RC.tick (RC.tickN 300 (RC.start RC.init).1)).1.timerIntervalMs = none ∧
    (RC.tick (RC.tickN 300 (RC.start RC.init).1)).1.digits = [0, 0, 0, 5, 0, 0] := by
  have h0 : (RC.start RC.init).1 =
      ⟨[0, 0, 0, 5, 0, 0], [2, 9, 5, 9, 5, 9], true,
       some 300, some 300, some 1000, false⟩ := by decide
  have h1 := rc_tickN_run 299 300 (RC.start RC.init).1 (by omega)
    (by rw [h0]; decide)
  rw [show (299 : Nat) + 1 = 300 from rfl] at h1
  rw [h1, h0]
  refine ⟨by decide, by decide, by decide, ?_, ?_, ?_, ?_⟩ <;> decide

/-- `getD` at the written position of `List.set`. -/
theorem getD_set_self (l : List Nat) (i a : Nat) (h : i < l.length) :
    (l.set i a).getD i 0 = a := by
  induction l generalizing i with
  | nil => simp at h
  | cons x xs ih =>
    cases i with
    | zero => rfl
    | succ i => exact ih i (by simpa using h)

/-- `getD` at any other position of `List.set`. -/
theorem getD_set_ne (l : List Nat) (i j a : Nat) (h : i ≠ j) :
    (l.set i a).getD j 0 = l.getD j 0 := by
  induction l generalizing i j with
  | nil => rfl
  | cons x xs ih =>
    cases i with
    | zero =>
      cases j with
      | zero => exact absurd rfl h
      | succ j => rfl
    | succ i =>
      cases j with
      | zero => rfl
      | succ j => exact ih i j (fun hij => h (by rw [hij]))

/-- C3. `start()` (RollCall.py) on a digit array decoding to zero emits the
zero-duration warning and leaves the whole state untouched; on any digit
array decoding to a positive total it snapshots `preStartSeconds` (and
`_initial_seconds`) to that total, sets the state to Running, starts the
1000-millisecond repeating tick, emits nothing, and leaves the digits
unchanged. -/
theorem start_zero_duration_and_positive :
    (∀ s : RC.TState, RC.digitsToSeconds s.digits = 0 →
      RC.start s = (s, [RC.TEvent.zeroDurationWarning])) ∧
    (∀ s : RC.TState, 0 < RC.digitsToSeconds s.digits →
      RC.start s = ({ s with
        preStartSeconds := some (RC.digitsToSeconds s.digits),
        initialSeconds := some (RC.digitsToSeconds s.digits),
        isRunning := true, timerIntervalMs := some 1000 }, [])) := by
  constructor
  · intro s h
    simp [RC.start, h]
  · intro s h
    have h0 : ¬ RC.digitsToSeconds s.digits = 0 := by omega
    simp [RC.start, h0]

/-- C3 witness: the all-zero digit array fails and changes nothing; the
initial 00:05:00 state starts with a 300-second snapshot. -/
theorem start_zero_duration_and_positive_witness :
    RC.start ⟨[0, 0, 0, 0, 0, 0], [2, 9, 5, 9, 5, 9], false, none, some 300, none, false⟩
      = (⟨[0, 0, 0, 0, 0, 0], [2, 9, 5, 9, 5, 9], false, none, some 300, none, false⟩,
         [RC.TEvent.zeroDurationWarning]) ∧
    RC.start RC.init = ({ RC.init with
      preStartSeconds := some (RC.digitsToSeconds RC.init.digits),
      initialSeconds := some (RC.digitsToSeconds RC.init.digits),
      isRunning := true, timerIntervalMs := some 1000 }, []) :=
  ⟨start_zero_duration_and_positive.1 _ (by decide),
   start_zero_duration_and_positive.2 RC.init (by decide)⟩

instance (s : RC.TState) : Decidable (RC.Wf s) := by
  unfold RC.Wf; infer_instance

/-- Bumping a digit with wrap past its maximum is addition modulo
`max + 1`. -/
theorem wrap_up_eq_mod (d m : Nat) (h : d ≤ m) :
    (if m < d + 1 then 0 else d + 1) = (d + 1) % (m + 1) := by
  split
  · have hd : d = m := by omega
    rw [hd, Nat.mod_self]
  · rw [Nat.mod_eq_of_lt (by omega)]

/-- Dropping a digit with wrap below zero is subtraction modulo `max + 1`,
written as `(d + m) % (m + 1)`. -/
theorem wrap_down_eq_mod (d m : Nat) (h : d ≤ m) :
    (if d = 0 then m else d - 1) = (d + m) % (m + 1) := by
  split
  · subst d
    rw [Nat.zero_add, Nat.mod_eq_of_lt (by omega)]
  · have he : d + m = (d - 1) + (m + 1) := by omega
    rw [he, Nat.add_mod_right, Nat.mod_eq_of_lt (by omega)]

/-- After `_enforce_hour_constraints`, digit 0 is untouched. -/
theorem enforce_digit0 (s : RC.TState) :
    (RC.enforceHourConstraints s).digits.getD 0 0 = s.digits.getD 0 0 := by
  simp only [RC.enforceHourConstraints]
  split <;> split <;>
    first
      | exact getD_set_ne _ 1 0 _ (by omega)
      | rfl

/-- After `_enforce_hour_constraints`, the hour-ones maximum is re-derived
from digit 0. -/
theorem enforce_max1 (s : RC.TState) (hm : s.maxDigit.length = 6) :
    (RC.enforceHourConstraints s).maxDigit.getD 1 0 =
      if s.digits.getD 0 0 = 2 then 3 else 9 := by
  unfold RC.enforceHourConstraints
  exact getD_set_self _ 1 _ (by omega)

/-- After `_enforce_hour_constraints`, the hour-ones digit is the old value
clamped down to the re-derived maximum. -/
theorem enforce_digit1 (s : RC.TState) (h6 : s.digits.length = 6)
    (hm : s.maxDigit.length = 6) :
    (RC.enforceHourConstraints s).digits.getD 1 0 =
      min (s.digits.getD 1 0) (if s.digits.getD 0 0 = 2 then 3 else 9) := by
  simp only [RC.enforceHourConstraints]
  generalize (if s.digits.getD 0 0 = 2 then (3 : Nat) else 9) = v
  rw [getD_set_self s.maxDigit 1 v (by omega)]
  split
  · rw [getD_set_self s.digits 1 v (by omega)]
    omega
  · omega

/-- C4. For the RollCall.py digit wheels: `_increment_digit` and
`_decrement_digit` are complete no-ops while running; otherwise, for every
position below 6 of a well-formed state, they cycle the digit at `pos`
modulo `maxDigit[pos] + 1` (wrap-around in both directions, decrement
written as `+ maxDigit[pos]`); and after mutating position 0 the engine
re-derives `maxDigit[1]` from the new H-tens digit (3 when it is 2, else 9)
and clamps `digits[1]` down to it. -/
theorem digit_stepping_spec :
    (∀ (s : RC.TState) (pos : Nat), s.isRunning = true →
      RC.incrementDigit s pos = s ∧ RC.decrementDigit s pos = s) ∧
    (∀ (s : RC.TState) (pos : Nat), s.isRunning = false → RC.Wf s → pos < 6 →
      (RC.incrementDigit s pos).digits.getD pos 0 =
        (s.digits.getD pos 0 + 1) % (s.maxDigit.getD pos 0 + 1) ∧
      (RC.decrementDigit s pos).digits.getD pos 0 =
        (s.digits.getD pos 0 + s.maxDigit.getD pos 0) % (s.maxDigit.getD pos 0 + 1)) ∧
    (∀ s : RC.TState, s.isRunning = false → RC.Wf s →
      ((RC.incrementDigit s 0).maxDigit.getD 1 0 =
        if (RC.incrementDigit s 0).digits.getD 0 0 = 2 then 3 else 9) ∧
      (RC.incrementDigit s 0).digits.getD 1 0 =
        min (s.digits.getD 1 0) ((RC.incrementDigit s 0).maxDigit.getD 1 0) ∧
      ((RC.decrementDigit s 0).maxDigit.getD 1 0 =
        if (RC.decrementDigit s 0).digits.getD 0 0 = 2 then 3 else 9) ∧
      (RC.decrementDigit s 0).digits.getD 1 0 =
        min (s.digits.getD 1 0) ((RC.decrementDigit s 0).maxDigit.getD 1 0)) := by
  have hinc0 : ∀ s : RC.TState, s.isRunning = false →
      RC.incrementDigit s 0 = RC.enforceHourConstraints { s with
        digits := s.digits.set 0
          (if s.maxDigit.getD 0 0 < s.digits.getD 0 0 + 1 then 0
           else s.digits.getD 0 0 + 1) } := by
    intro s hrun
    simp [RC.incrementDigit, hrun]
  have hdec0 : ∀ s : RC.TState, s.isRunning = false →
      RC.decrementDigit s 0 = RC.enforceHourConstraints { s with
        digits := s.digits.set 0
          (if s.digits.getD 0 0 = 0 then s.maxDigit.getD 0 0
           else s.digits.getD 0 0 - 1) } := by
    intro s hrun
    simp [RC.decrementDigit, hrun]
  refine ⟨?_, ?_, ?_⟩
  · intro s pos h
    constructor <;> simp [RC.incrementDigit, RC.decrementDigit, h]
  · intro s pos hrun hwf hpos
    obtain ⟨h6, hm6, hle⟩ := hwf
    have hd := hle pos hpos
    constructor
    · by_cases hp : pos = 0
      · subst hp
        rw [hinc0 s hrun, enforce_digit0]
        show (s.digits.set 0 _).getD 0 0 = _
        rw [getD_set_self s.digits 0 _ (by omega)]
        exact wrap_up_eq_mod _ _ hd
      · have h1 : RC.incrementDigit s pos = { s with
            digits := s.digits.set pos
              (if s.maxDigit.getD pos 0 < s.digits.getD pos 0 + 1 then 0
               else s.digits.getD pos 0 + 1) } := by
          simp [RC.incrementDigit, hrun, hp]
        rw [h1]
        show (s.digits.set pos _).getD pos 0 = _
        rw [getD_set_self s.digits pos _ (by omega)]
        exact wrap_up_eq_mod _ _ hd
    · by_cases hp : pos = 0
      · subst hp
        rw [hdec0 s hrun, enforce_digit0]
        show (s.digits.set 0 _).getD 0 0 = _
        rw [getD_set_self s.digits 0 _ (by omega)]
        exact wrap_down_eq_mod _ _ hd
      · have h1 : RC.decrementDigit s pos = { s with
            digits := s.digits.set pos
              (if s.digits.getD pos 0 = 0 then s.maxDigit.getD pos 0
               else s.digits.getD pos 0 - 1) } := by
          simp [RC.decrementDigit, hrun, hp]
        rw [h1]
        show (s.digits.set pos _).getD pos 0 = _
        rw [getD_set_self s.digits pos _ (by omega)]
        exact wrap_down_eq_mod _ _ hd
  · intro s hrun hwf
    obtain ⟨h6, hm6, hle⟩ := hwf
    refine ⟨?_, ?_, ?_, ?_⟩
    · rw [hinc0 s hrun, enforce_max1 _ (by exact hm6), enforce_digit0]
    · rw [hinc0 s hrun, enforce_digit1 _ (by simpa using h6) (by exact hm6),
        enforce_max1 _ (by exact hm6)]
      congr 1
      exact getD_set_ne s.digits 0 1 _ (by omega)
    · rw [hdec0 s hrun, enforce_max1 _ (by exact hm6), enforce_digit0]
    · rw [hdec0 s hrun, enforce_digit1 _ (by simpa using h6) (by exact hm6),
        enforce_max1 _ (by exact hm6)]
      congr 1
      exact getD_set_ne s.digits 0 1 _ (by omega)

/-- C4 witness: at the concrete state 17:00:00 — a running copy ignores both
operations; incrementing the minute-ones wheel steps modulo 10; and
incrementing H-tens from 1 to 2 re-derives `maxDigit[1] = 3` and clamps the
H-ones wheel from 7 down to 3 immediately, giving digits 23:00:00. -/
theorem digit_stepping_spec_witness :
    (RC.incrementDigit ⟨[1, 7, 0, 0, 0, 0], [2, 9, 5, 9, 5, 9], true, none, none, none, false⟩ 0 =
        ⟨[1, 7, 0, 0, 0, 0], [2, 9, 5, 9, 5, 9], true, none, none, none, false⟩ ∧
      RC.decrementDigit ⟨[1, 7, 0, 0, 0, 0], [2, 9, 5, 9, 5, 9], true, none, none, none, false⟩ 0 =
        ⟨[1, 7, 0, 0, 0, 0], [2, 9, 5, 9, 5, 9], true, none, none, none, false⟩) ∧
    ((RC.incrementDigit ⟨[1, 7, 0, 0, 0, 0], [2, 9, 5, 9, 5, 9], false, none, none, none, false⟩ 3).digits.getD 3 0 =
        ((⟨[1, 7, 0, 0, 0, 0], [2, 9, 5, 9, 5, 9], false, none, none, none, false⟩ : RC.TState).digits.getD 3 0 + 1) %
          ((⟨[1, 7, 0, 0, 0, 0], [2, 9, 5, 9, 5, 9], false, none, none, none, false⟩ : RC.TState).maxDigit.getD 3 0 + 1)) ∧
    (RC.incrementDigit ⟨[1, 7, 0, 0, 0, 0], [2, 9, 5, 9, 5, 9], false, none, none, none, false⟩ 0).digits.getD 1 0 =
      min ((⟨[1, 7, 0, 0, 0, 0], [2, 9, 5, 9, 5, 9], false, none, none, none, false⟩ : RC.TState).digits.getD 1 0)
        ((RC.incrementDigit ⟨[1, 7, 0, 0, 0, 0], [2, 9, 5, 9, 5, 9], false, none, none, none, false⟩ 0).maxDigit.getD 1 0) ∧
    (RC.incrementDigit ⟨[1, 7, 0, 0, 0, 0], [2, 9, 5, 9, 5, 9], false, none, none, none, false⟩ 0).digits = [2, 3, 0, 0, 0, 0] :=
  ⟨digit_stepping_spec.1 _ 0 rfl,
   (digit_stepping_spec.2.1 ⟨[1, 7, 0, 0, 0, 0], [2, 9, 5, 9, 5, 9], false, none, none, none, false⟩ 3 rfl
      (by refine ⟨rfl, rfl, ?_⟩; decide) (by decide)).1,
   (digit_stepping_spec.2.2 ⟨[1, 7, 0, 0, 0, 0], [2, 9, 5, 9, 5, 9], false, none, none, none, false⟩ rfl
      (by refine ⟨rfl, rfl, ?_⟩; decide)).2.1,
   by decide⟩

namespace MainT

/-!
Embedding of `TimerInterface` from Main.py, the revision whose conversions
clamp.  Only the parts the claims touch are embedded: the two conversions,
the hour-constraint enforcement and `reset` (with `_pause` and
`update_digit_display`, which keeps `_initial_seconds` in sync with the
displayed digits).
-/

/-- State of Main.py's `TimerInterface`. -/
structure MState where
  digits : List Nat
  maxDigit : List Nat
  isRunning : Bool
  preStartSeconds : Option Int
  initialSeconds : Option Int
  currentSeconds : Int
  timerIntervalMs : Option Nat
deriving DecidableEq

/-- `TimerInterface._digits_to_seconds` (Main.py): rejects non-6 lists,
clamps the hour-ones digit to 3 when the hour-tens digit is 2, then
decodes. -/
def digitsToSeconds (d : List Nat) : Nat :=
  if d.length ≠ 6 then 0
  else
    let hTens := d.getD 0 0
    let hOnes := d.getD 1 0
    let hOnes := if hTens = 2 ∧ 3 < hOnes then 3 else hOnes
    let h := hTens * 10 + hOnes
    let m := d.getD 2 0 * 10 + d.getD 3 0
    let s := d.getD 4 0 * 10 + d.getD 5 0
    h * 3600 + m * 60 + s

/-- `TimerInterface._seconds_to_digits` (Main.py): floors negatives at zero,
caps the hour field at 99, and re-applies the H-tens=2 ⇒ H-ones≤3 constraint
while decomposing. -/
def secondsToDigits (totalSeconds : Int) : List Nat :=
  let t := totalSeconds.toNat
  let h := t / 3600
  let m := (t % 3600) / 60
  let s := t % 60
  let h := min h 99
  let d0 := h / 10
  let d1 := h % 10
  let d1 := if d0 = 2 ∧ 3 < d1 then 3 else d1
  [d0, d1, m / 10, m % 10, s / 10, s % 10]

/-- `TimerInterface._enforce_hour_constraints` (Main.py, same code as the
RollCall.py revision). -/
def enforceHourConstraints (s : MState) : MState :=
  let maxD := s.maxDigit.set 1 (if s.digits.getD 0 0 = 2 then 3 else 9)
  let digits :=
    if maxD.getD 1 0 < s.digits.getD 1 0 then s.digits.set 1 (maxD.getD 1 0)
    else s.digits
  { s with maxDigit := maxD, digits := digits }

/-- `TimerInterface.update_digit_display` (Main.py): enforces the hour
constraint, refreshes the labels, and records `_initial_seconds` from the
displayed digits. -/
def updateDigitDisplay (s : MState) : MState :=
  let s := enforceHourConstraints s
  { s with initialSeconds := some (digitsToSeconds s.digits : Int) }

/-- `TimerInterface._pause` (Main.py). -/
def pause (s : MState) : MState :=
  { s with isRunning := false, timerIntervalMs := none }

/-- `TimerInterface.reset` (Main.py): pause when running; restore from the
pre-start snapshot when one exists, otherwise from `_initial_seconds` — and
when that is also unset, return leaving the state as the pause left it. -/
def reset (s : MState) : MState :=
  let s := if s.isRunning then pause s else s
  match s.preStartSeconds with
  | some p =>
    let s := { s with
      currentSeconds := p, digits := secondsToDigits p, initialSeconds := some p }
    updateDigitDisplay (enforceHourConstraints s)
  | none =>
    match s.initialSeconds with
    | none => s
    | some i =>
      let s := { s with currentSeconds := i, digits := secondsToDigits i }
      updateDigitDisplay (enforceHourConstraints s)

/-- Spec wording of `digitsToSeconds` ("clamp the decoded hour-ones value to
the constrained max before computing: H-tens=2 ⇒ H-ones≤3"), stated
independently of the source for the refinement comparison. -/
def digitsToSecondsSpec (d : List Nat) : Nat :=
  if d.length ≠ 6 then 0
  else
    let hOnesMax := if d.getD 0 0 = 2 then 3 else 9
    let h := d.getD 0 0 * 10 + min (d.getD 1 0) hOnesMax
    h * 3600 + (d.getD 2 0 * 10 + d.getD 3 0) * 60 + (d.getD 4 0 * 10 + d.getD 5 0)

/-- Spec wording of `secondsToDigits` ("clamps total hours to 99 and
re-applies the same constraint when decomposing"), stated independently of
the source for the refinement comparison. -/
def secondsToDigitsSpec (totalSeconds : Int) : List Nat :=
  let t := totalSeconds.toNat
  let h := min (t / 3600) 99
  let d0 := h / 10
  let d1 := min (h % 10) (if h / 10 = 2 then 3 else 9)
  [d0, d1, (t % 3600) / 60 / 10, (t % 3600) / 60 % 10, t % 60 / 10, t % 60 % 10]

end MainT

/-- C5. COUNTEREXAMPLE: the RollCall.py revision of the conversions performs
no clamping: `_digits_to_seconds [2,9,0,0,0,0]` decodes 29 raw hours to
104400 s instead of clamping hour-ones to 3 (82800 s), and
`_seconds_to_digits 360000` emits a ten in the hour-tens wheel instead of
capping the hours at 99. -/
theorem rollcall_conversions_do_not_clamp :
    RC.digitsToSeconds [2, 9, 0, 0, 0, 0] = 104400 ∧
    MainT.digitsToSecondsSpec [2, 9, 0, 0, 0, 0] = 82800 ∧
    RC.secondsToDigits 360000 = [10, 0, 0, 0, 0, 0] ∧
    MainT.secondsToDigitsSpec 360000 = [9, 9, 0, 0, 0, 0] := by
  refine ⟨?_, ?_, ?_, ?_⟩ <;> decide

/-- A list of length six is literally six entries. -/
theorem list_length_six (d : List Nat) (h : d.length = 6) :
    ∃ a b c e f g, d = [a, b, c, e, f, g] := by
  rcases d with _ | ⟨a, d⟩
  · simp at h
  rcases d with _ | ⟨b, d⟩
  · simp at h
  rcases d with _ | ⟨c, d⟩
  · simp at h
  rcases d with _ | ⟨e, d⟩
  · simp at h
  rcases d with _ | ⟨f, d⟩
  · simp at h
  rcases d with _ | ⟨g, d⟩
  · simp at h
  rcases d with _ | ⟨x, d⟩
  · exact ⟨a, b, c, e, f, g, rfl⟩
  · simp only [List.length_cons, List.length_nil] at h
    omega

/-- C5 (amended). The Main.py revision of the conversions clamps exactly as
claimed: `_digits_to_seconds` agrees with the spec conversion (hour-ones
clamped to the constrained maximum before decoding) on every 6-entry digit
array with digits ≤ 9, and `_seconds_to_digits` agrees with the spec
conversion (hours capped at 99, constraint re-applied) on every input; the
RollCall.py revision does neither. -/
theorem main_conversions_clamp :
    (∀ d : List Nat, (∀ x ∈ d, x ≤ 9) →
      MainT.digitsToSeconds d = MainT.digitsToSecondsSpec d) ∧
    (∀ t : Int, MainT.secondsToDigits t = MainT.secondsToDigitsSpec t) := by
  constructor
  · intro d hd
    by_cases hlen : d.length = 6
    · obtain ⟨a, b, c, e, f, g, rfl⟩ := list_length_six d hlen
      have h19 : b ≤ 9 := hd b (by simp)
      have key : (if a = 2 ∧ 3 < b then 3 else b) =
          min b (if a = 2 then 3 else 9) := by
        by_cases h0 : a = 2
        · by_cases h1 : 3 < b
          · rw [if_pos ⟨h0, h1⟩, if_pos h0]
            omega
          · rw [if_neg (by tauto), if_pos h0]
            omega
        · rw [if_neg (by tauto), if_neg h0]
          omega
      have hg : ¬ ((0 : Nat) + 1 + 1 + 1 + 1 + 1 + 1 ≠ 6) := by omega
      simp only [MainT.digitsToSeconds, MainT.digitsToSecondsSpec,
        List.length_cons, List.length_nil, List.getD_cons_zero,
        List.getD_cons_succ]
      rw [if_neg hg, if_neg hg, key]
    · have hg : d.length ≠ 6 := hlen
      simp only [MainT.digitsToSeconds, MainT.digitsToSecondsSpec]
      rw [if_pos hg, if_pos hg]
  · intro t
    have key : ∀ h : Nat, (if h / 10 = 2 ∧ 3 < h % 10 then 3 else h % 10) =
        min (h % 10) (if h / 10 = 2 then 3 else 9) := by
      intro h
      by_cases h0 : h / 10 = 2
      · by_cases h1 : 3 < h % 10
        · rw [if_pos ⟨h0, h1⟩, if_pos h0]
          omega
        · rw [if_neg (by tauto), if_pos h0]
          omega
      · rw [if_neg (by tauto), if_neg h0]
        omega
    simp only [MainT.secondsToDigits, MainT.secondsToDigitsSpec]
    rw [key]

/-- C5 witness: the Main.py conversions evaluated against the spec
conversions at the digit array `[2,9,0,0,0,0]` (which clamps to 23 hours)
and at 360000 seconds (which caps at 99 hours). -/
theorem main_conversions_clamp_witness :
    MainT.digitsToSeconds [2, 9, 0, 0, 0, 0] = MainT.digitsToSecondsSpec [2, 9, 0, 0, 0, 0] ∧
    MainT.secondsToDigits 360000 = MainT.secondsToDigitsSpec 360000 :=
  ⟨main_conversions_clamp.1 [2, 9, 0, 0, 0, 0] (by decide),
   main_conversions_clamp.2 360000⟩

/-- C6. Round-trip law: for every total `s ≤ 99:59:59` whose hour component
does not fall in the unrepresentable band 24..29 (H-tens = 2 with
H-ones > 3), converting to digits and back is the identity — in the Main.py
revision (where the excluded band would clamp down) and in the RollCall.py
revision alike. -/
theorem roundtrip_within_representable (s : Nat)
    (hle : s ≤ 99 * 3600 + 59 * 60 + 59)
    (hex : ¬ (24 ≤ s / 3600 ∧ s / 3600 ≤ 29)) :
    MainT.digitsToSeconds (MainT.secondsToDigits (s : Int)) = s ∧
    RC.digitsToSeconds (RC.secondsToDigits (s : Int)) = s := by
  refine ⟨?_, rc_roundtrip s⟩
  have hc : ¬ (s / 3600 / 10 = 2 ∧ 3 < s / 3600 % 10) := by omega
  have hs2d : MainT.secondsToDigits (s : Int) =
      [s / 3600 / 10, s / 3600 % 10, s % 3600 / 60 / 10, s % 3600 / 60 % 10,
       s % 60 / 10, s % 60 % 10] := by
    simp only [MainT.secondsToDigits, Int.toNat_natCast]
    have hmin : min (s / 3600) 99 = s / 3600 := by omega
    rw [hmin, if_neg hc]
  rw [hs2d]
  unfold MainT.digitsToSeconds
  simp only [List.length_cons, List.length_nil, List.getD_cons_zero,
    List.getD_cons_succ]
  rw [if_neg (by omega), if_neg hc]
  omega

/-- C6 witness: the round-trip law applied at 300 seconds (hour component 0,
inside the representable space). -/
theorem roundtrip_within_representable_witness :
    MainT.digitsToSeconds (MainT.secondsToDigits ((300 : Nat) : Int)) = 300 ∧
    RC.digitsToSeconds (RC.secondsToDigits ((300 : Nat) : Int)) = 300 :=
  roundtrip_within_representable 300 (by omega) (by omega)

/-- `_enforce_hour_constraints` (RollCall.py) leaves the digits alone when
the hour-ones digit is within bounds (≤ 9, and ≤ 3 under H-tens = 2). -/
theorem enforce_digits_noop (t : RC.TState) (hm : 1 < t.maxDigit.length)
    (h9 : t.digits.getD 1 0 ≤ 9)
    (h23 : t.digits.getD 0 0 = 2 → t.digits.getD 1 0 ≤ 3) :
    (RC.enforceHourConstraints t).digits = t.digits := by
  simp only [RC.enforceHourConstraints]
  rw [getD_set_self t.maxDigit 1 _ hm]
  by_cases h0 : t.digits.getD 0 0 = 2
  · rw [if_pos h0, if_neg (by have := h23 h0; omega)]
  · rw [if_neg h0, if_neg (by omega)]

/-- `_enforce_hour_constraints` (Main.py) leaves the digits alone when the
hour-ones digit is within bounds. -/
theorem m_enforce_digits_noop (t : MainT.MState) (hm : 1 < t.maxDigit.length)
    (h9 : t.digits.getD 1 0 ≤ 9)
    (h23 : t.digits.getD 0 0 = 2 → t.digits.getD 1 0 ≤ 3) :
    (MainT.enforceHourConstraints t).digits = t.digits := by
  simp only [MainT.enforceHourConstraints]
  rw [getD_set_self t.maxDigit 1 _ hm]
  by_cases h0 : t.digits.getD 0 0 = 2
  · rw [if_pos h0, if_neg (by have := h23 h0; omega)]
  · rw [if_neg h0, if_neg (by omega)]

/-- The hour digits produced by the RollCall.py decomposition of a total of
at most 23 hours satisfy the wheel constraint. -/
theorem rc_s2d_digits_ok (p : Nat) (hle : p / 3600 ≤ 23) :
    (RC.secondsToDigits (p : Int)).getD 1 0 ≤ 9 ∧
      ((RC.secondsToDigits (p : Int)).getD 0 0 = 2 →
        (RC.secondsToDigits (p : Int)).getD 1 0 ≤ 3) := by
  simp only [RC.secondsToDigits, Int.toNat_natCast, List.getD_cons_zero,
    List.getD_cons_succ]
  omega

/-- The hour digits produced by the Main.py decomposition always satisfy the
wheel constraint, thanks to its 99-hour cap and clamp. -/
theorem m_s2d_digits_ok (t : Int) :
    (MainT.secondsToDigits t).getD 1 0 ≤ 9 ∧
      ((MainT.secondsToDigits t).getD 0 0 = 2 →
        (MainT.secondsToDigits t).getD 1 0 ≤ 3) := by
  simp only [MainT.secondsToDigits, List.getD_cons_zero, List.getD_cons_succ]
  constructor
  · split <;> omega
  · intro h0
    split <;> omega

/-- `update_digit_display ∘ _enforce_hour_constraints` (Main.py) leaves
in-bounds digits alone. -/
theorem m_display_enforce_noop (t : MainT.MState) (hm : 1 < t.maxDigit.length)
    (h9 : t.digits.getD 1 0 ≤ 9)
    (h23 : t.digits.getD 0 0 = 2 → t.digits.getD 1 0 ≤ 3) :
    (MainT.updateDigitDisplay (MainT.enforceHourConstraints t)).digits = t.digits := by
  have h1 := m_enforce_digits_noop t hm h9 h23
  have hlen : 1 < (MainT.enforceHourConstraints t).maxDigit.length := by
    simp only [MainT.enforceHourConstraints, List.length_set]
    exact hm
  have h2 := m_enforce_digits_noop (MainT.enforceHourConstraints t) hlen
    (by rw [h1]; exact h9) (by rw [h1]; exact h23)
  show (MainT.enforceHourConstraints (MainT.enforceHourConstraints t)).digits = t.digits
  rw [h2, h1]

/-- C7. COUNTEREXAMPLE: in RollCall.py, editing the never-started timer
(one decrement of the minute-ones wheel: 00:05:00 → 00:04:00) and then
calling `reset` does NOT leave the digits as-is: the digits snap back to the
construction-time snapshot 00:05:00 even though `preStartSeconds` was never
set. -/
theorem rollcall_reset_discards_edit :
    (RC.decrementDigit RC.init 3).preStartSeconds = none ∧
    (RC.decrementDigit RC.init 3).digits = [0, 0, 0, 4, 0, 0] ∧
    (RC.reset (RC.decrementDigit RC.init 3)).digits = [0, 0, 0, 5, 0, 0] := by
  refine ⟨?_, ?_, ?_⟩ <;> decide

/-- C7 (amended). `reset` stops the tick and returns to Editing from any
state in both revisions, and restores the digits from `preStartSeconds` when
that snapshot exists (totals of at most 23 hours, as every reachable
snapshot is); when the timer was never started, the Main.py revision leaves
the digits as-is (its `_initial_seconds` tracks the displayed digits, which
decompose canonically), while the RollCall.py revision restores the
construction-time `_initial_seconds` snapshot instead, discarding edits. -/
theorem reset_behaviour :
    (∀ s : RC.TState, (RC.reset s).isRunning = false ∧
      (RC.reset s).timerIntervalMs = none) ∧
    (∀ (s : RC.TState) (p : Nat), 1 < s.maxDigit.length →
      s.preStartSeconds = some p → p / 3600 ≤ 23 →
      (RC.reset s).digits = RC.secondsToDigits (p : Int)) ∧
    (∀ (s : RC.TState) (i : Nat), 1 < s.maxDigit.length →
      s.preStartSeconds = none → s.initialSeconds = some i → i / 3600 ≤ 23 →
      (RC.reset s).digits = RC.secondsToDigits (i : Int)) ∧
    (∀ s : MainT.MState, (MainT.reset s).isRunning = false) ∧
    (∀ (s : MainT.MState) (p : Int), 1 < s.maxDigit.length →
      s.preStartSeconds = some p →
      (MainT.reset s).digits = MainT.secondsToDigits p) ∧
    (∀ s : MainT.MState, 1 < s.maxDigit.length →
      s.preStartSeconds = none →
      s.initialSeconds = some (MainT.digitsToSeconds s.digits : Int) →
      MainT.secondsToDigits (MainT.digitsToSeconds s.digits : Int) = s.digits →
      (MainT.reset s).digits = s.digits) := by
  refine ⟨?_, ?_, ?_, ?_, ?_, ?_⟩
  · intro s
    rcases hp : s.preStartSeconds with _ | p
    · rcases hi : s.initialSeconds with _ | i <;>
        constructor <;>
        simp [RC.reset, RC.stop, RC.enforceHourConstraints, hp, hi]
    · constructor <;>
        simp [RC.reset, RC.stop, RC.enforceHourConstraints, hp]
  · intro s p hm hp hle
    have hok := rc_s2d_digits_ok p hle
    simp only [RC.reset, RC.stop, hp]
    rw [enforce_digits_noop _
      (by show 1 < s.maxDigit.length; omega)
      (show (RC.secondsToDigits (p : Int)).getD 1 0 ≤ 9 from hok.1)
      (show _ from hok.2)]
  · intro s i hm hp hi hle
    have hok := rc_s2d_digits_ok i hle
    simp only [RC.reset, RC.stop, hp, hi]
    rw [enforce_digits_noop _
      (by show 1 < s.maxDigit.length; omega)
      (show (RC.secondsToDigits (i : Int)).getD 1 0 ≤ 9 from hok.1)
      (show _ from hok.2)]
  · intro s
    rcases hp : s.preStartSeconds with _ | p
    · rcases hi : s.initialSeconds with _ | i <;>
        by_cases hr : s.isRunning <;>
        simp [MainT.reset, MainT.pause, MainT.updateDigitDisplay,
          MainT.enforceHourConstraints, hp, hi, hr]
    · by_cases hr : s.isRunning <;>
        simp [MainT.reset, MainT.pause, MainT.updateDigitDisplay,
          MainT.enforceHourConstraints, hp, hr]
  · intro s p hm hp
    have hok := m_s2d_digits_ok p
    by_cases hr : s.isRunning <;>
      simp only [MainT.reset, MainT.pause, hr, hp, if_true, if_false,
        Bool.false_eq_true] <;>
      rw [m_display_enforce_noop _
        (by show 1 < s.maxDigit.length; omega)
        (show (MainT.secondsToDigits p).getD 1 0 ≤ 9 from hok.1)
        (show _ from hok.2)]
  · intro s hm hp hi hcanon
    have hok := m_s2d_digits_ok (MainT.digitsToSeconds s.digits : Int)
    rw [hcanon] at hok
    by_cases hr : s.isRunning <;>
      simp only [MainT.reset, MainT.pause, hr, hp, hi, if_true, if_false,
        Bool.false_eq_true] <;>
      rw [hcanon] <;>
      rw [m_display_enforce_noop _
        (by show 1 < s.maxDigit.length; omega)
        (by exact hok.1)
        (by exact hok.2)]

/-- C7 witness: the reset theorem applied at concrete states — a running
RollCall.py state with snapshot 300 restores 00:05:00; the freshly
constructed RollCall.py state resets to its construction snapshot; a running
Main.py state with snapshot 300 restores 00:05:00; and an edited
never-started Main.py state (00:04:00, `_initial_seconds` in sync) keeps its
digits. -/
theorem reset_behaviour_witness :
    (RC.reset ⟨[0, 0, 0, 0, 0, 0], [2, 9, 5, 9, 5, 9], true, some 300, some 300,
        some 1000, false⟩).digits = RC.secondsToDigits ((300 : Nat) : Int) ∧
    (RC.reset RC.init).digits = RC.secondsToDigits ((300 : Nat) : Int) ∧
    (MainT.reset ⟨[0, 0, 0, 0, 0, 0], [2, 9, 5, 9, 5, 9], true, some 300, some 300,
        300, some 1000⟩).digits = MainT.secondsToDigits 300 ∧
    (MainT.reset ⟨[0, 0, 0, 4, 0, 0], [2, 9, 5, 9, 5, 9], false, none, some 240,
        240, none⟩).digits = [0, 0, 0, 4, 0, 0] :=
  ⟨reset_behaviour.2.1 _ 300 (by decide) rfl (by decide),
   reset_behaviour.2.2.1 RC.init 300 (by decide) (by decide) (by decide) (by decide),
   reset_behaviour.2.2.2.2.1 _ 300 (by decide) rfl,
   reset_behaviour.2.2.2.2.2 ⟨[0, 0, 0, 4, 0, 0], [2, 9, 5, 9, 5, 9], false, none,
      some 240, 240, none⟩ (by decide) rfl (by decide) (by decide)⟩

namespace Upd

/-!
Embedding of Update.py.  A staged update tree is a list of entries; each
file / directory carries a flag saying whether the corresponding OS call
(`shutil.copy2`, `os.makedirs`) succeeds or raises (e.g. permission
denied).  `copyItem` threads the `copied_count`/`error_count` pair and
returns the Boolean the Python function returns; crucially, the loop over a
directory's children discards the recursive return value, exactly as
`copy_item` does at RollCall.py's Update.py lines 88-91.
-/

/-- One entry of the staged update tree. -/
inductive Entry where
  | file (name : String) (ok : Bool)
  | dir (name : String) (mkdirOk : Bool) (children : List Entry)

mutual

/-- `copy_item` (Update.py): returns `(returned Bool, (copied, errors))`. -/
def copyItem : Entry → Nat × Nat → Bool × (Nat × Nat)
  | Entry.file _ ok, st =>
    if ok then (true, (st.1 + 1, st.2)) else (false, (st.1, st.2 + 1))
  | Entry.dir _ mkOk children, st =>
    if mkOk then (true, copyChildren children st) else (false, (st.1, st.2 + 1))

/-- The loop `for item_name in os.listdir(source_path): copy_item(...)`
inside the directory branch of `copy_item`: the recursive results are
discarded. -/
def copyChildren : List Entry → Nat × Nat → Nat × Nat
  | [], st => st
  | x :: xs, st => copyChildren xs (copyItem x st).2

end

/-- The top-level loop of `copy_and_replace_files`: aborts (`none`) as soon
as a top-level `copy_item` call returns `False`. -/
def copyTop : List Entry → Nat × Nat → Option (Nat × Nat)
  | [], st => some st
  | x :: xs, st =>
    let r := copyItem x st
    if r.1 then copyTop xs r.2 else none

/-- `copy_and_replace_files` (Update.py): fails when the source directory is
missing; otherwise runs the top-level loop and finally returns
`copied_count > 0 or error_count == 0`. -/
def copy_and_replace_files (sourceExists : Bool) (entries : List Entry) : Bool :=
  if sourceExists = false then false
  else
    match copyTop entries (0, 0) with
    | none => false
    | some st => decide (0 < st.1) || decide (st.2 = 0)

/-- Outcome of the platform `subprocess.run` kill command. -/
inductive RunOutcome where
  | completed (returncode : Int) (stdoutSuccess : Bool)
  | timedOut
  | commandMissing
deriving DecidableEq

/-- What happens inside `kill_process_by_name`'s outer `try`. -/
inductive KillOutcome where
  | ran (o : RunOutcome)
  | unexpectedError
deriving DecidableEq

set_option linter.unusedVariables false in
/-- `kill_process_by_name` (Update.py): `killed` is computed from the
command outcome (on Windows, exit code 0 or a success marker in stdout;
elsewhere, exit code 0; timeouts and a missing command are swallowed) but
only gates the 2-second wait — the function returns `True` on every path
except the outer exception handler. -/
def kill_process_by_name (isWindows : Bool) (outcome : KillOutcome) : Bool :=
  match outcome with
  | KillOutcome.unexpectedError => false
  | KillOutcome.ran o =>
    let killed :=
      match o with
      | RunOutcome.completed rc ok =>
        if isWindows then decide (rc = 0) || ok else decide (rc = 0)
      | RunOutcome.timedOut => false
      | RunOutcome.commandMissing => false
    true

end Upd

/-- C8. The staged tree `[dir "D" (file "F" fails, file "G" ok)]` shows the
apply step is not fail-fast below the top level: the nested failure on "F"
is recorded (`error_count = 1`) but its `False` return is discarded by the
directory branch, the sibling "G" is still copied (`copied_count = 1`), and
`copy_and_replace_files` reports overall SUCCESS (`copied_count > 0`).  By
contrast the same two files placed at the top level do abort.  The spec
mandates fail-fast at any depth, and the top-level check of `copy_item`'s
return shows that was the intent — the dropped return value at the
recursive call site is the slip. -/
theorem nested_copy_failure_not_failfast :
    Upd.copyTop [Upd.Entry.dir "D" true
        [Upd.Entry.file "F" false, Upd.Entry.file "G" true]] (0, 0) = some (1, 1) ∧
    Upd.copy_and_replace_files true [Upd.Entry.dir "D" true
        [Upd.Entry.file "F" false, Upd.Entry.file "G" true]] = true ∧
    Upd.copy_and_replace_files true
        [Upd.Entry.file "F" false, Upd.Entry.file "G" true] = false := by
  refine ⟨rfl, rfl, rfl⟩

/-- C10. `kill_process_by_name` returns `True` exactly when no unexpected
exception reaches the outer handler — on both platforms, for every command
outcome, including non-zero exit codes, timeouts and a missing kill command
— so a successful and a failed termination are indistinguishable to the
caller. -/
theorem kill_returns_true_unless_unexpected :
    (∀ (w : Bool) (o : Upd.KillOutcome),
      Upd.kill_process_by_name w o = true ↔ o ≠ Upd.KillOutcome.unexpectedError) ∧
    (∀ w : Bool,
      Upd.kill_process_by_name w (Upd.KillOutcome.ran (Upd.RunOutcome.completed 1 false)) =
        Upd.kill_process_by_name w (Upd.KillOutcome.ran (Upd.RunOutcome.completed 0 true))) := by
  constructor
  · intro w o
    cases o <;> simp [Upd.kill_process_by_name]
  · intro w
    rfl

namespace Persist

/-- `os.path.dirname` for POSIX-style paths: everything before the last
separator, with trailing separators stripped unless the head is all
separators (so `dirname "names.json" = ""`, `dirname "a/b" = "a"`,
`dirname "/b" = "/"`). -/
def dirname (p : String) : String :=
  let cs := p.toList
  match cs.reverse.findIdx? (fun ch => ch = '/') with
  | none => ""
  | some ri =>
    let i := cs.length - ri
    let head := cs.take i
    let head :=
      if head ≠ [] ∧ ¬ head.all (fun ch => ch = '/') then
        (head.reverse.dropWhile (fun ch => ch = '/')).reverse
      else head
    String.mk head

/-- The filesystem as the persistence layer sees it: directories known to
exist and the roster documents written so far. -/
structure FS where
  dirs : List String
  files : List (String × Roster.State)
deriving DecidableEq

/-- `os.makedirs(path, exist_ok=True)`, modelled from its documented
behaviour: an empty path raises `FileNotFoundError` (even with
`exist_ok=True`); any non-empty path is created (or already exists) and the
call succeeds. -/
def makedirs (fs : FS) (path : String) : Option FS :=
  if path = "" then none
  else some { fs with dirs := path :: fs.dirs }

/-- `NameListManager.save_to_file` (RollCall.py): create the parent
directory of `filename`, then write the JSON document and return `True`;
any exception is swallowed and `False` is returned with nothing written. -/
def save_to_file (fs : FS) (filename : String) (r : Roster.State) : Bool × FS :=
  match makedirs fs (dirname filename) with
  | none => (false, fs)
  | some fs1 => (true, { fs1 with files := (filename, r) :: fs1.files })

end Persist

/-- A path without a separator has an empty `dirname`. -/
theorem dirname_no_slash (filename : String)
    (h : Char.ofNat 47 ∉ filename.toList) : Persist.dirname filename = "" := by
  simp only [Persist.dirname]
  have hfind : filename.toList.reverse.findIdx? (fun ch => ch = '/') = none := by
    rw [List.findIdx?_eq_none_iff]
    intro x hx
    simp only [decide_eq_false_iff_not]
    intro hxeq
    subst hxeq
    exact h (by simpa using hx)
  rw [hfind]

/-- C9. For every filesystem and roster, `save_to_file` with a filename
that has no directory component (no separator, so `os.path.dirname` yields
the empty string) returns `False` and writes nothing: `os.makedirs("")`
raises, the handler swallows the exception, and the file is never opened —
even though the roster itself is perfectly serialisable. -/
theorem save_without_directory_fails (fs : Persist.FS) (filename : String)
    (r : Roster.State) (h : Char.ofNat 47 ∉ filename.toList) :
    Persist.save_to_file fs filename r = (false, fs) := by
  unfold Persist.save_to_file
  rw [dirname_no_slash filename h]
  rfl

/-- C9 witness: saving a non-empty roster to the bare filename
`names.json` fails and leaves the (empty) filesystem untouched. -/
theorem save_without_directory_fails_witness :
    Persist.save_to_file ⟨[], []⟩ "names.json" ⟨["A"], ∅⟩ = (false, ⟨[], []⟩) :=
  save_without_directory_fails ⟨[], []⟩ "names.json" ⟨["A"], ∅⟩ (by decide)
